import Mathlib

/-!
Shallow embedding of the twilio-go HTTP client layer (`httpclient.go`).

The development models, faithfully to the Go source:
  * error values as produced by `errors.New`, `github.com/pkg/errors.Wrap/Wrapf`
    and `errors.Errorf` (`GoErr`),
  * the parts of Go's `net/url` package used by the client: `url.Parse` and
    `(*url.URL).String`, including scheme detection and lower-casing,
    authority splitting, percent-escape validation/decoding of the path, and
    re-serialisation (`urlParse`, `URL.toString`),
  * `http.NewRequest`, `Request.SetBasicAuth`, `Header.Set` and
    `Request.WithContext` on an explicit request record that records header
    writes as a trace so that "set exactly once" is observable,
  * the `apiClient` type with `NewHTTPClient`, `Get`, `Post`, `Delete` and the
    shared `request` helper.  Effects (number of transport invocations, the
    request handed to the transport, body close/read) are recorded in the
    returned `CallResult`.

Scope notes for the `net/url` model: strings are modelled as sequences of
Unicode characters and escaping works per character (Go escapes per UTF-8
byte; the two agree on ASCII, which covers every concrete input used below).
IPv6 host literals, userinfo decoding and fragment re-escaping are carried as
raw strings rather than decoded, as no code path of this repository observes
their decoded forms.
-/

namespace Twilio

/-- Model of Go error values as this code base creates them:
`errors.New` leaves (`errNew`), `pkg/errors` wrapping with a message
(`wrap`, message rendered as `msg ++ ": " ++ cause`), and `errors.Errorf`
leaves (`errorf`). -/
inductive GoErr where
  | errNew (msg : String)
  | wrap (cause : GoErr) (msg : String)
  | errorf (msg : String)
deriving DecidableEq, Repr

/-- The `Error()` rendering of a `GoErr`; `pkg/errors` wrapping renders as
`msg: cause`. -/
def GoErr.message : GoErr → String
  | .errNew m => m
  | .errorf m => m
  | .wrap c m => m ++ ": " ++ c.message

/-- Go `github.com/pkg/errors.Cause`: repeatedly unwrap to the root cause. -/
def GoErr.cause : GoErr → GoErr
  | .wrap c _ => c.cause
  | e => e

/-- The chain of errors reachable by unwrapping, starting at the error
itself.  An error `e` is inspectable from `w` iff `e ∈ w.causeChain`. -/
def GoErr.causeChain : GoErr → List GoErr
  | .wrap c m => .wrap c m :: c.causeChain
  | e => [e]

/-- The sentinel `ErrNotFound` from `httpclient.go`: the shared "resource not found"
sentinel (`errors.New("not found")`). -/
def ErrNotFound : GoErr := .errNew "not found"

/-- Model of `strconv.Quote` restricted to strings that need no escaping
(all concrete strings quoted in this development are of this form). -/
def goQuote (s : String) : String := "\"" ++ s ++ "\""

/-! ### Character classes (ASCII) -/

def isUpperAlpha (c : Char) : Bool := 'A' ≤ c && c ≤ 'Z'

def isLowerAlpha (c : Char) : Bool := 'a' ≤ c && c ≤ 'z'

def isAlphaCh (c : Char) : Bool := isUpperAlpha c || isLowerAlpha c

def isDigitCh (c : Char) : Bool := '0' ≤ c && c ≤ '9'

/-- Go `net/url.ishex`. -/
def ishex (c : Char) : Bool :=
  isDigitCh c || ('a' ≤ c && c ≤ 'f') || ('A' ≤ c && c ≤ 'F')

/-- Go `net/url.unhex`. -/
def unhex (c : Char) : Nat :=
  if isDigitCh c then c.toNat - '0'.toNat
  else if 'a' ≤ c && c ≤ 'f' then c.toNat - 'a'.toNat + 10
  else if 'A' ≤ c && c ≤ 'F' then c.toNat - 'A'.toNat + 10
  else 0

/-- Go `net/url.stringContainsCTLByte`. -/
def containsCtl (s : String) : Bool :=
  s.data.any (fun c => c.toNat < 0x20 || c.toNat == 0x7f)

/-! ### Percent-escaping (`net/url` escape machinery) -/

/-- The escaping modes of `net/url` that this client exercises. -/
inductive EncMode where
  | encodePath
  | encodeHost
  | encodeFragment
  | encodeUserPassword
deriving DecidableEq, Repr

/-- Go `net/url.shouldEscape`, restricted to the modes above. -/
def shouldEscape (c : Char) (mode : EncMode) : Bool :=
  if isAlphaCh c || isDigitCh c then false
  else if c = '-' || c = '_' || c = '.' || c = '~' then false
  else if mode = .encodeHost &&
      ['!', '$', '&', '\'', '(', ')', '*', '+', ',', ';', '=',
       ':', '[', ']', '<', '>', '"'].contains c then false
  else if c = '$' || c = '&' || c = '+' || c = ',' || c = '/' || c = ':' ||
      c = ';' || c = '=' || c = '?' || c = '@' then
    match mode with
    | .encodePath => c = '?'
    | .encodeUserPassword => c = '@' || c = '/' || c = '?' || c = ':'
    | .encodeFragment => false
    | .encodeHost => true
  else true

/-- Upper-case hex digit of a value `< 16` (`net/url` uses `"0123456789ABCDEF"`). -/
def hexUpper (n : Nat) : Char :=
  if n < 10 then Char.ofNat ('0'.toNat + n) else Char.ofNat ('A'.toNat + n - 10)

/-- Go `net/url.escape` on a character sequence (per-character; agrees with Go's
per-byte escaping on ASCII). -/
def escapeChars (mode : EncMode) : List Char → List Char
  | [] => []
  | c :: cs =>
      (if shouldEscape c mode then
        ['%', hexUpper (c.toNat / 16 % 16), hexUpper (c.toNat % 16)]
      else [c]) ++ escapeChars mode cs

/-- Go `net/url.EscapeError`: `invalid URL escape "..."` naming at most the three
characters at the bad escape. -/
def escapeErrOf (cs : List Char) : GoErr :=
  .errNew ("invalid URL escape " ++ goQuote (String.mk (cs.take 3)))

/-- Go `net/url.unescape` restricted to the modes above ('+' handling belongs to
the query modes, which this client never uses). -/
def unescapeChars (mode : EncMode) : List Char → Except GoErr (List Char)
  | [] => .ok []
  | c :: cs =>
    if c = '%' then
      match cs with
      | a :: b :: cs2 =>
        if ishex a && ishex b then
          if mode = .encodeHost && unhex a < 8 && !(a = '2' && b = '5') then
            .error (.errNew ("invalid character " ++ goQuote (String.mk ['%', a, b]) ++
              " in host name"))
          else
            (unescapeChars mode cs2).map (fun l => Char.ofNat (16 * unhex a + unhex b) :: l)
        else .error (escapeErrOf ('%' :: a :: b :: []))
      | _ => .error (escapeErrOf ('%' :: cs))
    else
      if mode = .encodeHost && c.toNat < 0x80 && shouldEscape c .encodeHost then
        .error (.errNew ("invalid character " ++ goQuote (String.mk [c]) ++ " in host name"))
      else (unescapeChars mode cs).map (fun l => c :: l)

/-- Go `net/url.validEncoded`. -/
def validEncoded (s : String) (mode : EncMode) : Bool :=
  s.data.all (fun c =>
    if ['!', '$', '&', '\'', '(', ')', '*', '+', ',', ';', '=',
        ':', '@', '[', ']', '%'].contains c then true
    else !(shouldEscape c mode))

/-! ### The `url.URL` record, parsing and serialisation -/

/-- Model of `net/url.URL` (fields this client can observe; `opq` is Go's
`Opaque`, `user` carries the raw userinfo string). -/
structure URL where
  scheme : String := ""
  opq : String := ""
  user : Option String := none
  host : String := ""
  path : String := ""
  rawPath : String := ""
  omitHost : Bool := false
  forceQuery : Bool := false
  rawQuery : String := ""
  fragment : String := ""
deriving DecidableEq, Repr

/-- Go `(*url.URL).IsAbs`. -/
def URL.isAbs (u : URL) : Bool := u.scheme ≠ ""

/-- Go `strings.Cut` at the first occurrence of a character:
`some (before, after)` when found. -/
def listSplitFirst (c : Char) : List Char → Option (List Char × List Char)
  | [] => none
  | x :: xs =>
      if x = c then some ([], xs)
      else (listSplitFirst c xs).map (fun p => (x :: p.1, p.2))

/-- Index of the last occurrence of a character. -/
def lastIndexOfAux (c : Char) : List Char → Nat → Option Nat → Option Nat
  | [], _, acc => acc
  | x :: xs, i, acc => lastIndexOfAux c xs (i + 1) (if x = c then some i else acc)

def lastIndexOf (c : Char) (l : List Char) : Option Nat := lastIndexOfAux c l 0 none

/-- Go `net/url.getScheme`, followed in `parse` by lower-casing (applied by the
caller).  Returns `(scheme, rest)`. -/
def getSchemeAux (orig : List Char) : List Char → List Char → Except GoErr (String × String)
  | _, [] => .ok ("", String.mk orig)
  | acc, c :: cs =>
    if isAlphaCh c then getSchemeAux orig (c :: acc) cs
    else if isDigitCh c || c = '+' || c = '-' || c = '.' then
      if acc.isEmpty then .ok ("", String.mk orig)
      else getSchemeAux orig (c :: acc) cs
    else if c = ':' then
      if acc.isEmpty then .error (.errNew "missing protocol scheme")
      else .ok (String.mk acc.reverse, String.mk cs)
    else .ok ("", String.mk orig)

def getScheme (rawURL : List Char) : Except GoErr (String × String) :=
  getSchemeAux rawURL [] rawURL

/-- The query split of `net/url.parse`: a single trailing `?` sets
`ForceQuery`; otherwise cut at the first `?`.  Returns
`(rest, rawQuery, forceQuery)`. -/
def cutQuery (rest : List Char) : List Char × String × Bool :=
  if rest.getLast? = some '?' && !(rest.dropLast.contains '?') then
    (rest.dropLast, "", true)
  else
    match listSplitFirst '?' rest with
    | some (before, after) => (before, String.mk after, false)
    | none => (rest, "", false)

/-- Go `net/url.validOptionalPort`. -/
def validOptionalPort : List Char → Bool
  | [] => true
  | ':' :: digits => digits.all isDigitCh
  | _ => false

/-- Go `net/url.validUserinfo`. -/
def validUserinfo (s : List Char) : Bool :=
  s.all (fun c =>
    isAlphaCh c || isDigitCh c ||
    ['-', '.', '_', ':', '~', '!', '$', '&', '\'', '(', ')', '*', '+', ',',
     ';', '=', '%', '@'].contains c)

/-- Go `net/url.parseHost` (IPv6 bracket syntax not modelled; the bracket
characters pass host-mode validation unchanged, as in Go). -/
def parseHost (host : List Char) : Except GoErr String :=
  let checked : Except GoErr Unit :=
    match lastIndexOf ':' host with
    | some i =>
        let colonPort := host.drop i
        if !(validOptionalPort colonPort) then
          .error (.errNew ("invalid port " ++ goQuote (String.mk colonPort) ++ " after host"))
        else .ok ()
    | none => .ok ()
  match checked with
  | .error e => .error e
  | .ok _ => (unescapeChars .encodeHost host).map String.mk

/-- Go `net/url.parseAuthority`: split userinfo at the last `@`, validate it,
parse the host.  Userinfo is kept raw (no caller of this client decodes it). -/
def parseAuthority (authority : List Char) : Except GoErr (Option String × String) :=
  match lastIndexOf '@' authority with
  | none => (parseHost authority).map (fun h => (none, h))
  | some i =>
      let userinfo := authority.take i
      let hostPart := authority.drop (i + 1)
      if !(validUserinfo userinfo) then .error (.errNew "net/url: invalid userinfo")
      else (parseHost hostPart).map (fun h => (some (String.mk userinfo), h))

/-- Go `(*url.URL).setPath`: decode the path, remember the raw form only when it
differs from the canonical re-escaping. -/
def setPathOn (u : URL) (p : String) : Except GoErr URL :=
  match unescapeChars .encodePath p.data with
  | .error e => .error e
  | .ok dec =>
      let pathStr := String.mk dec
      let raw := if String.mk (escapeChars .encodePath dec) = p then "" else p
      .ok { u with path := pathStr, rawPath := raw }

def startsWithChar : List Char → Char → Bool
  | x :: _, c => x = c
  | [], _ => false

def startsWith2 : List Char → Char → Char → Bool
  | a :: b :: _, x, y => a = x && b = y
  | _, _, _ => false

def startsWith3 : List Char → Char → Char → Char → Bool
  | a :: b :: c :: _, x, y, z => a = x && b = y && c = z
  | _, _, _, _ => false

/-- Authority extraction and path setting, the tail of `net/url.parse`
(`viaRequest = false`). -/
def contParse (u0 : URL) (rest : List Char) : Except GoErr URL :=
  if (u0.scheme ≠ "" || !(startsWith3 rest '/' '/' '/')) && startsWith2 rest '/' '/' then
    let rest2 := rest.drop 2
    let split :=
      match listSplitFirst '/' rest2 with
      | some (before, after) => (before, '/' :: after)
      | none => (rest2, [])
    match parseAuthority split.1 with
    | .error e => .error e
    | .ok (user, host) => setPathOn { u0 with user := user, host := host } (String.mk split.2)
  else
    let u1 :=
      if u0.scheme ≠ "" && startsWithChar rest '/' then { u0 with omitHost := true } else u0
    setPathOn u1 (String.mk rest)

/-- Go `net/url.parse` with `viaRequest := false`, the fragment already cut off
by the caller. -/
def parseRef (rawURL : String) : Except GoErr URL :=
  if containsCtl rawURL then .error (.errNew "net/url: invalid control character in URL")
  else
    match getScheme rawURL.data with
    | .error e => .error e
    | .ok (scheme0, restStr) =>
      let scheme := String.mk (scheme0.data.map Char.toLower)
      let cut := cutQuery restStr.data
      let u0 : URL := { scheme := scheme, rawQuery := cut.2.1, forceQuery := cut.2.2 }
      let rest := cut.1
      if !(startsWithChar rest '/') then
        if scheme ≠ "" then .ok { u0 with opq := String.mk rest }
        else
          let seg := ((listSplitFirst '/' rest).map (fun p => p.1)).getD rest
          if seg.contains ':' then
            .error (.errNew "first path segment in URL cannot contain colon")
          else contParse u0 rest
      else contParse u0 rest

/-- The `&url.Error{"parse", rawURL, err}` wrapper that `url.Parse` applies;
`url.Error` carries no `Cause` method, so `pkg/errors.Cause` treats it as a
leaf and the model renders it as one formatted leaf error. -/
def wrapParseErr (rawURL : String) (e : GoErr) : GoErr :=
  .errNew ("parse " ++ goQuote rawURL ++ ": " ++ e.message)

/-- Go `net/url.Parse`: cut the fragment, parse the rest, validate and attach the
fragment (kept raw; nothing in this repository reads a decoded fragment). -/
def urlParse (rawURL : String) : Except GoErr URL :=
  match listSplitFirst '#' rawURL.data with
  | none =>
      match parseRef rawURL with
      | .error e => .error (wrapParseErr rawURL e)
      | .ok u => .ok u
  | some (before, frag) =>
      match parseRef (String.mk before) with
      | .error e => .error (wrapParseErr rawURL e)
      | .ok u =>
          match unescapeChars .encodeFragment frag with
          | .error e => .error (wrapParseErr rawURL e)
          | .ok _ => .ok { u with fragment := String.mk frag }

/-- Go `(*url.URL).EscapedPath`. -/
def URL.escapedPath (u : URL) : String :=
  if u.rawPath ≠ "" && validEncoded u.rawPath .encodePath then
    match unescapeChars .encodePath u.rawPath.data with
    | .ok p =>
        if String.mk p = u.path then u.rawPath
        else String.mk (escapeChars .encodePath u.path.data)
    | .error _ => String.mk (escapeChars .encodePath u.path.data)
  else String.mk (escapeChars .encodePath u.path.data)

/-- Go `(*url.URL).String`. -/
def URL.toString (u : URL) : String :=
  let schemePart := if u.scheme ≠ "" then u.scheme ++ ":" else ""
  let core :=
    if u.opq ≠ "" then u.opq
    else
      let auth :=
        if u.scheme ≠ "" || u.host ≠ "" || u.user.isSome then
          if u.omitHost && u.host = "" && u.user.isNone then ""
          else
            let slashes := if u.host ≠ "" || u.path ≠ "" || u.user.isSome then "//" else ""
            let userPart :=
              match u.user with
              | some ui => ui ++ "@"
              | none => ""
            let hostPart :=
              if u.host ≠ "" then String.mk (escapeChars .encodeHost u.host.data) else ""
            slashes ++ userPart ++ hostPart
        else ""
      let p := u.escapedPath
      let p1 := if p ≠ "" && !(startsWithChar p.data '/') && u.host ≠ "" then "/" ++ p else p
      let dotSlash :=
        if schemePart ++ auth = "" then
          let seg := ((listSplitFirst '/' p.data).map (fun pr => pr.1)).getD p.data
          if seg.contains ':' then "./" else ""
        else ""
      auth ++ dotSlash ++ p1
  let q := if u.forceQuery || u.rawQuery ≠ "" then "?" ++ u.rawQuery else ""
  let f := if u.fragment ≠ "" then "#" ++ u.fragment else ""
  schemePart ++ core ++ q ++ f

/-! ### Contexts, requests and the `net/http` constructors the client uses -/

/-- Model of `context.Context` values as the client can observe them:
`context.Background()` and `context.WithValue` chains. -/
inductive Ctx where
  | background
  | withValue (parent : Ctx) (key val : String)
deriving DecidableEq, Repr

/-- Model of `*http.Request` as handed to the transport.  `urlStr` is the raw
URL string given to `http.NewRequest`, `url` its parse.  `headerOps` records
every `Header.Set` call in order (name, value), so that "set exactly once" is
an observable property of the record. -/
structure Request where
  method : String
  urlStr : String
  url : URL
  body : Option (List Nat)
  headerOps : List (String × String)
  ctx : Ctx
deriving DecidableEq, Repr

/-- RFC 7230 token characters, as accepted by `net/http.validMethod`
(0x60 is the backquote character). -/
def isTokenChar (c : Char) : Bool :=
  isAlphaCh c || isDigitCh c ||
  ['!', '#', '$', '%', '&', '\'', '*', '+', '-', '.', '^', '_', '|', '~'].contains c ||
  c.toNat == 0x60

/-- Go `net/http.validMethod`. -/
def validMethod (m : String) : Bool := m ≠ "" && m.data.all isTokenChar

/-- UTF-8 encoding of one character (bytes as `Nat`s below 256). -/
def utf8Bytes (c : Char) : List Nat :=
  let n := c.toNat
  if n < 0x80 then [n]
  else if n < 0x800 then [0xC0 + n / 64, 0x80 + n % 64]
  else if n < 0x10000 then [0xE0 + n / 4096, 0x80 + n / 64 % 64, 0x80 + n % 64]
  else [0xF0 + n / 262144, 0x80 + n / 4096 % 64, 0x80 + n / 64 % 64, 0x80 + n % 64]

/-- UTF-8 bytes of a string (as `Nat`s below 256). -/
def strBytes (s : String) : List Nat := s.data.flatMap utf8Bytes

/-- Standard base64 alphabet. -/
def b64Char (n : Nat) : Char :=
  if n < 26 then Char.ofNat ('A'.toNat + n)
  else if n < 52 then Char.ofNat ('a'.toNat + (n - 26))
  else if n < 62 then Char.ofNat ('0'.toNat + (n - 52))
  else if n = 62 then '+' else '/'

/-- Go `encoding/base64.StdEncoding.EncodeToString`. -/
def base64Std : List Nat → String
  | [] => ""
  | [a] =>
      String.mk [b64Char (a / 4), b64Char (a % 4 * 16)] ++ "=="
  | [a, b] =>
      String.mk [b64Char (a / 4), b64Char (a % 4 * 16 + b / 16), b64Char (b % 16 * 4)] ++ "="
  | a :: b :: c :: rest =>
      String.mk [b64Char (a / 4), b64Char (a % 4 * 16 + b / 16),
        b64Char (b % 16 * 4 + c / 64), b64Char (c % 64)] ++ base64Std rest

/-- Go `net/http.NewRequest` (without an explicit context, so the request's
context is `context.Background()`): default the method, validate it, parse the
URL, build the request with an empty header map. -/
def httpNewRequest (method urlString : String) (body : Option (List Nat)) :
    Except GoErr Request :=
  let method := if method = "" then "GET" else method
  if !(validMethod method) then
    .error (.errNew ("net/http: invalid method " ++ goQuote method))
  else
    match urlParse urlString with
    | .error e => .error e
    | .ok u =>
        .ok { method := method, urlStr := urlString, url := u, body := body,
              headerOps := [], ctx := .background }

/-- Go `(*http.Request).SetBasicAuth`: one `Header.Set("Authorization", ...)`
with the base64 of `user:pass`. -/
def Request.setBasicAuth (r : Request) (user pass : String) : Request :=
  { r with headerOps :=
      r.headerOps ++ [("Authorization", "Basic " ++ base64Std (strBytes (user ++ ":" ++ pass)))] }

/-- Go `Header.Set` (the two keys this client sets are already in canonical MIME
form). -/
def Request.setHeader (r : Request) (k v : String) : Request :=
  { r with headerOps := r.headerOps ++ [(k, v)] }

/-- Go `(*http.Request).WithContext`: returns a copy of the request with the new
context; the receiver is unchanged. -/
def Request.withContext (r : Request) (c : Ctx) : Request := { r with ctx := c }

/-! ### Responses, the transport abstraction, and the API client -/

/-- A response body: the bytes `ioutil.ReadAll` delivers before hitting
end-of-stream or a read error (`readErr = none` models a body that reads to
completion). -/
structure Body where
  data : List Nat
  readErr : Option GoErr
deriving DecidableEq, Repr

/-- Model of `*http.Response` (the fields `request` reads). -/
structure Response where
  statusCode : Int
  body : Body
deriving DecidableEq, Repr

/-- Go `ioutil.ReadAll`: the bytes read plus the error that stopped reading, if
any (`io.EOF` is reported as no error). -/
def readAll (b : Body) : List Nat × Option GoErr := (b.data, b.readErr)

/-- The `RequestHandler` capability (`Do(*http.Request) (*http.Response, error)`). -/
def Transport : Type := Request → Except GoErr Response

/-- The `apiClient` struct from `httpclient.go`. -/
structure ApiClient where
  url : URL
  accountSID : String
  authToken : String
  requestHandler : Transport

/-- Source `NewHTTPClient`: parse the base URL, wrap a parse failure as
`could not parse url`, otherwise return the fully constructed client. -/
def NewHTTPClient (accountSID authToken baseURL : String) (rh : Transport) :
    Except GoErr ApiClient :=
  match urlParse baseURL with
  | .error err => .error (GoErr.wrap err "could not parse url")
  | .ok u =>
      .ok { url := u, accountSID := accountSID, authToken := authToken, requestHandler := rh }

/-- Observable outcome of one `request` call, with the call's effects made
explicit: `bytes`/`err` are the returned pair (`none` bytes is Go's nil
slice), `doCount` counts transport invocations, `sent` is the request handed
to the transport (if any), `bodyClosed`/`bodyRead` record whether
`resp.Body.Close()` ran and whether the body was read. -/
structure CallResult where
  bytes : Option (List Nat)
  err : Option GoErr
  doCount : Nat
  sent : Option Request
  bodyClosed : Bool
  bodyRead : Bool
deriving DecidableEq, Repr

/-- Steps 1–3 of `apiClient.request`: `http.NewRequest(method,
client.url.String()+path, body)`, then `SetBasicAuth` and the `Content-Type`
header (the parse error is wrapped by `request` itself, below). -/
def ApiClient.preparedRequest (client : ApiClient) (method path : String)
    (body : Option (List Nat)) : Except GoErr Request :=
  match httpNewRequest method (client.url.toString ++ path) body with
  | .error err => .error err
  | .ok req =>
      let req := req.setBasicAuth client.accountSID client.authToken
      .ok (req.setHeader "Content-Type" "application/x-www-form-urlencoded")

/-- Source `apiClient.request`.  As in the source, the result of
`req.WithContext(ctx)` is discarded, so the request handed to the transport
keeps the context `http.NewRequest` gave it; `defer resp.Body.Close()` closes
the body on every exit path after `Do` returns a response. -/
def ApiClient.request (client : ApiClient) (ctx : Ctx) (method path : String)
    (body : Option (List Nat)) : CallResult :=
  match client.preparedRequest method path body with
  | .error err =>
      { bytes := none, err := some (GoErr.wrap err "could not create request"),
        doCount := 0, sent := none, bodyClosed := false, bodyRead := false }
  | .ok req =>
      let _ := req.withContext ctx
      match client.requestHandler req with
      | .error e =>
          { bytes := none,
            err := some (GoErr.wrap e ("could not get a response for " ++ req.url.toString)),
            doCount := 1, sent := some req, bodyClosed := false, bodyRead := false }
      | .ok resp =>
          let statusCode := resp.statusCode
          if statusCode < 200 ∨ 400 ≤ statusCode then
            if statusCode = 404 then
              { bytes := none, err := some ErrNotFound, doCount := 1, sent := some req,
                bodyClosed := true, bodyRead := false }
            else
              { bytes := none,
                err := some (GoErr.errorf ("unexpected status code: " ++ toString statusCode)),
                doCount := 1, sent := some req, bodyClosed := true, bodyRead := false }
          else
            let readOut := readAll resp.body
            { bytes := some readOut.1, err := readOut.2, doCount := 1, sent := some req,
              bodyClosed := true, bodyRead := true }

/-- Source `apiClient.Get`. -/
def ApiClient.Get (client : ApiClient) (ctx : Ctx) (path : String) : CallResult :=
  client.request ctx "GET" path none

/-- Source `apiClient.Post`. -/
def ApiClient.Post (client : ApiClient) (ctx : Ctx) (path : String)
    (body : Option (List Nat)) : CallResult :=
  client.request ctx "POST" path body

/-- Source `apiClient.Delete`. -/
def ApiClient.Delete (client : ApiClient) (ctx : Ctx) (path : String) : CallResult :=
  client.request ctx "DELETE" path none

deriving instance DecidableEq for Except

/-! ### Concrete fixtures (mirroring `httpclient_test.go`) -/

/-- A body holding the two bytes of the string used by the repository's own
tests (`0x7b 0x7d`) that reads to completion. -/
def egBody : Body := { data := [123, 125], readErr := none }

/-- The parse of the test base URL `https://twilio.com/v2`. -/
def egBase : URL := { scheme := "https", host := "twilio.com", path := "/v2" }

def egT200 : Transport := fun _ => .ok { statusCode := 200, body := egBody }

def egT404 : Transport := fun _ => .ok { statusCode := 404, body := egBody }

def egT500 : Transport := fun _ => .ok { statusCode := 500, body := egBody }

def egTFail : Transport := fun _ => .error (.errNew "test")

/-- A read error used to exercise the success-status/failed-read path. -/
def egReadErr : GoErr := .errNew "read failed"

/-- A body that yields one byte and then fails. -/
def egBodyFail : Body := { data := [123], readErr := some egReadErr }

def egT200Fail : Transport := fun _ => .ok { statusCode := 200, body := egBodyFail }

/-- The client the repository's tests build: credentials `acc`/`auth`, base
URL `https://twilio.com/v2`, over the given transport. -/
def egClient (t : Transport) : ApiClient :=
  { url := egBase, accountSID := "acc", authToken := "auth", requestHandler := t }

/-- The request `egClient` prepares for `Get ctx "/get"`. -/
def egReqGet : Request :=
  { method := "GET", urlStr := "https://twilio.com/v2/get",
    url := { scheme := "https", host := "twilio.com", path := "/v2/get" },
    body := none,
    headerOps := [("Authorization", "Basic YWNjOmF1dGg="),
                  ("Content-Type", "application/x-www-form-urlencoded")],
    ctx := .background }

/-- The request `egClient` prepares for `Delete ctx "/get"`. -/
def egReqDelete : Request := { egReqGet with method := "DELETE" }

def egResp200 : Response := { statusCode := 200, body := egBody }

def egResp404 : Response := { statusCode := 404, body := egBody }

def egResp500 : Response := { statusCode := 500, body := egBody }

def egResp200Fail : Response := { statusCode := 200, body := egBodyFail }

/-- The error `url.Parse` produces for the invalid base URL `%`. -/
def egParseErrPct : GoErr := .errNew "parse \"%\": invalid URL escape \"%\""

/-- The error `url.Parse` produces for `https://twilio.com/v2/get%2`. -/
def egParseErrPct2 : GoErr :=
  .errNew "parse \"https://twilio.com/v2/get%2\": invalid URL escape \"%2\""

/-- Every error is in its own cause chain. -/
theorem goErr_self_mem_causeChain (e : GoErr) : e ∈ e.causeChain := by
  cases e <;> simp [GoErr.causeChain]

/-! ### Claim theorems -/

/-- C1: for every call (Get, Post, Delete all delegate to `request`, covered
here for an arbitrary method) in which the transport returns a response with
status code in `[200, 400)` and whose body reads to completion, the call
returns exactly the full response body bytes, unmodified, and a nil error. -/
theorem success_returns_full_body (client : ApiClient) (ctx : Ctx)
    (method path : String) (body : Option (List Nat)) (req : Request) (resp : Response)
    (hreq : client.preparedRequest method path body = .ok req)
    (hdo : client.requestHandler req = .ok resp)
    (hlo : 200 ≤ resp.statusCode) (hhi : resp.statusCode < 400)
    (hread : resp.body.readErr = none) :
    (client.request ctx method path body).bytes = some resp.body.data ∧
    (client.request ctx method path body).err = none := by
  simp only [ApiClient.request, hreq, hdo]
  rw [if_neg (by omega : ¬(resp.statusCode < 200 ∨ 400 ≤ resp.statusCode))]
  simp [readAll, hread]

/-- C1 witness: the 200/`0x7b 0x7d` scenario from the repository's tests. -/
theorem success_returns_full_body_witness :
    ((egClient egT200).Get Ctx.background "/get").bytes = some [123, 125] ∧
    ((egClient egT200).Get Ctx.background "/get").err = none :=
  success_returns_full_body (egClient egT200) Ctx.background "GET" "/get" none
    egReqGet egResp200 (by decide) (by rfl) (by decide) (by decide) rfl

/-- C2: for every call (any method; Get, Post and Delete delegate to
`request`) in which the transport returns a response with status code 404,
the call returns the single shared not-found sentinel error value
`ErrNotFound`, regardless of verb or response body content, and no bytes. -/
theorem status404_returns_notfound_sentinel (client : ApiClient) (ctx : Ctx)
    (method path : String) (body : Option (List Nat)) (req : Request) (resp : Response)
    (hreq : client.preparedRequest method path body = .ok req)
    (hdo : client.requestHandler req = .ok resp)
    (h404 : resp.statusCode = 404) :
    (client.request ctx method path body).bytes = none ∧
    (client.request ctx method path body).err = some ErrNotFound := by
  simp only [ApiClient.request, hreq, hdo]
  rw [if_pos (by omega : resp.statusCode < 200 ∨ 400 ≤ resp.statusCode),
    if_pos h404]
  exact ⟨rfl, rfl⟩

/-- C2 witness: the 404 scenario from the repository's tests (Delete verb,
non-empty response body). -/
theorem status404_returns_notfound_sentinel_witness :
    ((egClient egT404).Delete Ctx.background "/get").bytes = none ∧
    ((egClient egT404).Delete Ctx.background "/get").err = some ErrNotFound :=
  status404_returns_notfound_sentinel (egClient egT404) Ctx.background "DELETE" "/get"
    none egReqDelete egResp404 (by decide) (by rfl) (by decide)

/-- C3: for every call in which the transport returns a response whose status
code is outside `[200, 400)` and not 404, the call returns an error whose
message is exactly `unexpected status code: ` followed by the code in Go
`%d` rendering (decimal, no padding), and no bytes. -/
theorem unexpected_status_error_message (client : ApiClient) (ctx : Ctx)
    (method path : String) (body : Option (List Nat)) (req : Request) (resp : Response)
    (hreq : client.preparedRequest method path body = .ok req)
    (hdo : client.requestHandler req = .ok resp)
    (hout : resp.statusCode < 200 ∨ 400 ≤ resp.statusCode)
    (hne : resp.statusCode ≠ 404) :
    (client.request ctx method path body).err =
      some (GoErr.errorf ("unexpected status code: " ++ toString resp.statusCode)) ∧
    (∀ w, (client.request ctx method path body).err = some w →
      w.message = "unexpected status code: " ++ toString resp.statusCode) ∧
    (client.request ctx method path body).bytes = none := by
  simp only [ApiClient.request, hreq, hdo]
  rw [if_pos hout, if_neg hne]
  refine ⟨rfl, ?_, rfl⟩
  intro w hw
  cases hw
  rfl

/-- C3 witness: the status-500 scenario from the repository's tests. -/
theorem unexpected_status_error_message_witness :
    ((egClient egT500).Get Ctx.background "/get").err =
      some (GoErr.errorf "unexpected status code: 500") ∧
    ((egClient egT500).Get Ctx.background "/get").bytes = none := by
  have h := unexpected_status_error_message (egClient egT500) Ctx.background "GET" "/get"
    none egReqGet egResp500 (by decide) (by rfl) (by decide) (by decide)
  exact ⟨h.1, h.2.2⟩

/-- C10: for every call in which the transport returns a response with status
in `[200, 400)` but reading the response body fails, the call returns the raw
read error unwrapped (exactly the error the reader produced, not wrapped into
any of the client's classified error kinds) together with the bytes read
before the failure. -/
theorem read_failure_returns_raw_error_and_partial_bytes (client : ApiClient) (ctx : Ctx)
    (method path : String) (body : Option (List Nat)) (req : Request) (resp : Response)
    (e : GoErr)
    (hreq : client.preparedRequest method path body = .ok req)
    (hdo : client.requestHandler req = .ok resp)
    (hlo : 200 ≤ resp.statusCode) (hhi : resp.statusCode < 400)
    (hfail : resp.body.readErr = some e) :
    (client.request ctx method path body).bytes = some resp.body.data ∧
    (client.request ctx method path body).err = some e := by
  simp only [ApiClient.request, hreq, hdo]
  rw [if_neg (by omega : ¬(resp.statusCode < 200 ∨ 400 ≤ resp.statusCode))]
  exact ⟨rfl, by simpa [readAll] using hfail⟩

/-- C10 witness: a 200 response whose body yields one byte and then fails. -/
theorem read_failure_returns_raw_error_and_partial_bytes_witness :
    ((egClient egT200Fail).Get Ctx.background "/get").bytes = some [123] ∧
    ((egClient egT200Fail).Get Ctx.background "/get").err = some egReadErr :=
  read_failure_returns_raw_error_and_partial_bytes (egClient egT200Fail) Ctx.background
    "GET" "/get" none egReqGet egResp200Fail egReadErr (by decide) (by rfl) (by decide)
    (by decide) (by decide)

/-- C4 counterexample: the claim says construction fails iff `baseURL` does
not parse as an *absolute* URL, and that a stored base URL is always
absolute.  At `baseURL = "foo"` (a relative reference, no scheme)
`url.Parse` succeeds, so `NewHTTPClient` succeeds and stores a non-absolute
URL. -/
theorem construction_succeeds_on_relative_baseURL :
    urlParse "foo" = .ok { path := "foo" } ∧
    URL.isAbs { path := "foo" } = false ∧
    NewHTTPClient "acc" "auth" "foo" egTFail =
      .ok { url := { path := "foo" }, accountSID := "acc", authToken := "auth",
            requestHandler := egTFail } :=
  ⟨by decide, by decide, rfl⟩

/-- C4 as amended: construction fails, with an error wrapping the parse
failure under `could not parse url`, iff `baseURL` fails to parse as a URL
reference (absolute or relative); when parsing succeeds the client is
returned fully constructed, storing exactly the parsed URL (which need not be
absolute) and the supplied credentials and transport. -/
theorem construction_fails_iff_parse_fails (sid tok baseURL : String) (rh : Transport) :
    (∀ e, urlParse baseURL = .error e →
      NewHTTPClient sid tok baseURL rh = .error (GoErr.wrap e "could not parse url")) ∧
    (∀ u, urlParse baseURL = .ok u →
      NewHTTPClient sid tok baseURL rh =
        .ok { url := u, accountSID := sid, authToken := tok, requestHandler := rh }) := by
  constructor
  · intro e he
    simp [NewHTTPClient, he]
  · intro u hu
    simp [NewHTTPClient, hu]

/-- C4 witness: construction fails on the invalid base URL `%` (the scenario
from the repository's tests) with the wrapped parse error, and succeeds on
`https://twilio.com/v2` returning the fully constructed client. -/
theorem construction_fails_iff_parse_fails_witness :
    NewHTTPClient "acc" "auth" "%" egTFail =
      .error (GoErr.wrap egParseErrPct "could not parse url") ∧
    NewHTTPClient "acc" "auth" "https://twilio.com/v2" egT200 = .ok (egClient egT200) :=
  ⟨(construction_fails_iff_parse_fails "acc" "auth" "%" egTFail).1 egParseErrPct (by decide),
   (construction_fails_iff_parse_fails "acc" "auth" "https://twilio.com/v2" egT200).2
     egBase (by decide)⟩

/-- C5: for every call, the transport is invoked at most once; and when the
concatenated URL is unparseable, each verb returns the wrapped
request-construction error and the transport is never invoked. -/
theorem transport_at_most_once_and_never_on_bad_url (client : ApiClient) (ctx : Ctx)
    (path : String) (body : Option (List Nat)) :
    ((client.Get ctx path).doCount ≤ 1 ∧ (client.Post ctx path body).doCount ≤ 1 ∧
      (client.Delete ctx path).doCount ≤ 1) ∧
    (∀ e, urlParse (client.url.toString ++ path) = .error e →
      (client.Get ctx path).doCount = 0 ∧
      (client.Get ctx path).err = some (GoErr.wrap e "could not create request") ∧
      (client.Post ctx path body).doCount = 0 ∧
      (client.Post ctx path body).err = some (GoErr.wrap e "could not create request") ∧
      (client.Delete ctx path).doCount = 0 ∧
      (client.Delete ctx path).err = some (GoErr.wrap e "could not create request")) := by
  have hle : ∀ method bodyStream, (client.request ctx method path bodyStream).doCount ≤ 1 := by
    intro method bodyStream
    rcases hp : client.preparedRequest method path bodyStream with e | req
    · simp [ApiClient.request, hp]
    · rcases hd : client.requestHandler req with e2 | resp
      · simp [ApiClient.request, hp, hd]
      · by_cases h1 : resp.statusCode < 200 ∨ 400 ≤ resp.statusCode
        · by_cases h2 : resp.statusCode = 404 <;>
            simp [ApiClient.request, hp, hd, h1, h2]
        · simp [ApiClient.request, hp, hd, h1]
  have hbad : ∀ method bodyStream, validMethod method = true →
      ∀ e, urlParse (client.url.toString ++ path) = .error e →
      (client.request ctx method path bodyStream).doCount = 0 ∧
      (client.request ctx method path bodyStream).err =
        some (GoErr.wrap e "could not create request") := by
    intro method bodyStream hm e he
    have hne : method ≠ "" := by
      intro h
      rw [h] at hm
      exact absurd hm (by decide)
    have : client.preparedRequest method path bodyStream = .error e := by
      simp [ApiClient.preparedRequest, httpNewRequest, hne, hm, he]
    simp [ApiClient.request, this]
  exact ⟨⟨hle "GET" none, hle "POST" body, hle "DELETE" none⟩,
    fun e he =>
      ⟨(hbad "GET" none (by decide) e he).1, (hbad "GET" none (by decide) e he).2,
       (hbad "POST" body (by decide) e he).1, (hbad "POST" body (by decide) e he).2,
       (hbad "DELETE" none (by decide) e he).1, (hbad "DELETE" none (by decide) e he).2⟩⟩

/-- C5 witness: with base URL `https://twilio.com/v2` and path `/get%2` (the
unparseable-URL scenario from the repository's tests), all three verbs return
the wrapped parse error without invoking the transport; the at-most-once
bound instantiated at the same call. -/
theorem transport_at_most_once_and_never_on_bad_url_witness :
    ((egClient egT200).Get Ctx.background "/get%2").doCount = 0 ∧
    ((egClient egT200).Get Ctx.background "/get%2").err =
      some (GoErr.wrap egParseErrPct2 "could not create request") ∧
    ((egClient egT200).Post Ctx.background "/get%2" none).doCount = 0 ∧
    ((egClient egT200).Delete Ctx.background "/get%2").doCount = 0 ∧
    ((egClient egT200).Get Ctx.background "/get").doCount ≤ 1 := by
  have h := transport_at_most_once_and_never_on_bad_url (egClient egT200) Ctx.background
    "/get%2" none
  have h2 := (transport_at_most_once_and_never_on_bad_url (egClient egT200) Ctx.background
    "/get" none).1.1
  have hb := h.2 egParseErrPct2 (by decide)
  exact ⟨hb.1, hb.2.1, hb.2.2.1, hb.2.2.2.2.1, h2⟩

/-- C6: for every call in which the transport returns an error `e`, the call
returns no bytes and an error wrapping `e` whose message names the failing
URL; `e` stays inspectable through the cause chain (`pkg/errors.Cause`
reaches it) rather than being flattened into a string. -/
theorem transport_error_wrapped_with_url_and_cause (client : ApiClient) (ctx : Ctx)
    (method path : String) (body : Option (List Nat)) (req : Request) (e : GoErr)
    (hreq : client.preparedRequest method path body = .ok req)
    (hdo : client.requestHandler req = .error e) :
    (client.request ctx method path body).bytes = none ∧
    (client.request ctx method path body).err =
      some (GoErr.wrap e ("could not get a response for " ++ req.url.toString)) ∧
    (∀ w, (client.request ctx method path body).err = some w →
      e ∈ w.causeChain ∧ w.cause = e.cause ∧
      w.message = "could not get a response for " ++ req.url.toString ++ ": " ++ e.message) := by
  simp only [ApiClient.request, hreq, hdo]
  refine ⟨trivial, trivial, ?_⟩
  intro w hw
  cases hw
  refine ⟨?_, rfl, ?_⟩
  · exact List.mem_cons_of_mem _ (goErr_self_mem_causeChain e)
  · simp [GoErr.message, String.append_assoc]

/-- C6 witness: the transport-error scenario from the repository's tests
(`errors.New("test")`); the cause chain of the returned error contains the
original error. -/
theorem transport_error_wrapped_with_url_and_cause_witness :
    ((egClient egTFail).Get Ctx.background "/get").bytes = none ∧
    ((egClient egTFail).Get Ctx.background "/get").err =
      some (GoErr.wrap (.errNew "test")
        ("could not get a response for " ++ "https://twilio.com/v2/get")) := by
  have h := transport_error_wrapped_with_url_and_cause (egClient egTFail) Ctx.background
    "GET" "/get" none egReqGet (.errNew "test") (by decide) (by rfl)
  exact ⟨h.1, h.2.1⟩

/-- C7 (code evaluation): the source computes `req.WithContext(ctx)` but
discards the returned copy, so the request handed to the transport keeps the
context `http.NewRequest` installed — `context.Background()` — and not the
caller-supplied context.  Evaluated at a call whose caller context carries a
value (as the repository's own test sets up): the sent request's context is
`background`, which differs from the caller's context. -/
theorem context_not_bound_to_sent_request :
    (((egClient egT200).Get (Ctx.withValue .background "key" "test") "/get").sent).map
        (fun r => r.ctx) = some Ctx.background ∧
    Ctx.withValue .background "key" "test" ≠ Ctx.background :=
  ⟨by decide, by decide⟩

/-- Any request handed to the transport is exactly the prepared request. -/
theorem sent_eq_prepared (client : ApiClient) (ctx : Ctx) (method path : String)
    (body : Option (List Nat)) (req : Request)
    (hsent : (client.request ctx method path body).sent = some req) :
    client.preparedRequest method path body = .ok req := by
  rcases hp : client.preparedRequest method path body with e | req0
  · simp [ApiClient.request, hp] at hsent
  · rcases hd : client.requestHandler req0 with e2 | resp
    · simp [ApiClient.request, hp, hd] at hsent
      rw [hsent]
    · by_cases h1 : resp.statusCode < 200 ∨ 400 ≤ resp.statusCode
      · by_cases h2 : resp.statusCode = 404
        · simp [ApiClient.request, hp, hd, h1, h2] at hsent
          rw [hsent]
        · simp [ApiClient.request, hp, hd, h1, h2] at hsent
          rw [hsent]
      · simp [ApiClient.request, hp, hd, h1] at hsent
        rw [hsent]

/-- Inversion for `http.NewRequest`: a successfully built request records the
URL string it was given, has an empty header map, and carries
`context.Background()`. -/
theorem httpNewRequest_ok_shape (method urlString : String) (body : Option (List Nat))
    (req : Request) (h : httpNewRequest method urlString body = .ok req) :
    req.urlStr = urlString ∧ req.headerOps = [] ∧ req.ctx = .background := by
  simp only [httpNewRequest] at h
  by_cases hv : validMethod (if method = "" then "GET" else method) = true
  · rw [hv] at h
    simp only [Bool.not_true] at h
    rw [if_neg (by simp)] at h
    rcases hu : urlParse urlString with e | u <;> rw [hu] at h
    · simp at h
    · simp only [Except.ok.injEq] at h
      rw [← h]
      exact ⟨rfl, rfl, rfl⟩
  · rw [Bool.not_eq_true] at hv
    rw [hv] at h
    simp at h

/-- C8 counterexample: the claim says the target URL equals the byte-for-byte
concatenation of the `baseURL` string and the path.  With
`baseURL = "HTTPS://twilio.com/v2"` (upper-case scheme), `url.Parse`
lower-cases the scheme, and the request is built from
`client.url.String() + path`, i.e. `https://twilio.com/v2/get`, which differs
byte-for-byte from `baseURL + path`. -/
theorem target_url_not_byte_for_byte_baseURL :
    NewHTTPClient "acc" "auth" "HTTPS://twilio.com/v2" egT200 = .ok (egClient egT200) ∧
    (((egClient egT200).Get Ctx.background "/get").sent).map (fun r => r.urlStr) =
      some "https://twilio.com/v2/get" ∧
    (((egClient egT200).Get Ctx.background "/get").sent).map (fun r => r.url.toString) =
      some "https://twilio.com/v2/get" ∧
    "https://twilio.com/v2/get" ≠ "HTTPS://twilio.com/v2" ++ "/get" := by
  have hu : urlParse "HTTPS://twilio.com/v2" = .ok egBase := by decide
  refine ⟨?_, by decide, by decide, by decide⟩
  simp [NewHTTPClient, hu, egClient]

/-- C8 as amended: every request handed to the transport has Basic-Auth
credentials set exactly once from the stored credential pair, the
`Content-Type` header set exactly once to
`application/x-www-form-urlencoded` regardless of verb, and a URL string
equal to the byte-for-byte concatenation of the *serialization of the stored
parsed base URL* (`client.url.String()`) and the caller-supplied path — which
coincides with `baseURL + path` exactly when `baseURL` survives the
parse/serialize round trip, but not in general. -/
theorem sent_request_headers_and_url (client : ApiClient) (ctx : Ctx)
    (method path : String) (body : Option (List Nat)) (req : Request)
    (hsent : (client.request ctx method path body).sent = some req) :
    req.urlStr = client.url.toString ++ path ∧
    req.headerOps.filter (fun p => p.1 = "Authorization") =
      [("Authorization",
        "Basic " ++ base64Std (strBytes (client.accountSID ++ ":" ++ client.authToken)))] ∧
    req.headerOps.filter (fun p => p.1 = "Content-Type") =
      [("Content-Type", "application/x-www-form-urlencoded")] := by
  have hp := sent_eq_prepared client ctx method path body req hsent
  rcases hn : httpNewRequest method (client.url.toString ++ path) body with e | req1
  · simp [ApiClient.preparedRequest, hn] at hp
  · have hshape := httpNewRequest_ok_shape _ _ _ _ hn
    simp only [ApiClient.preparedRequest, hn, Except.ok.injEq] at hp
    rw [← hp]
    simp [Request.setBasicAuth, Request.setHeader, hshape.1, hshape.2.1]

/-- C8 witness: the prepared GET request of the test client carries exactly
one Authorization header from `acc`/`auth`, exactly one Content-Type header,
and the URL string `client.url.String() + "/get"`. -/
theorem sent_request_headers_and_url_witness :
    egReqGet.urlStr = (egClient egT200).url.toString ++ "/get" ∧
    egReqGet.headerOps.filter (fun p => p.1 = "Authorization") =
      [("Authorization", "Basic " ++ base64Std (strBytes ("acc" ++ ":" ++ "auth")))] ∧
    egReqGet.headerOps.filter (fun p => p.1 = "Content-Type") =
      [("Content-Type", "application/x-www-form-urlencoded")] :=
  sent_request_headers_and_url (egClient egT200) Ctx.background "GET" "/get" none
    egReqGet (by decide)

/-- C9 counterexample: the claim says that on error paths the body is still
*drained* (read to completion) and closed.  On the 404 path the code only
runs the deferred `Close`: the body is closed but never read, refuting the
"drained" part (the repository performs no `io.Copy`/read on error paths). -/
theorem error_path_body_closed_not_drained :
    ((egClient egT404).Get Ctx.background "/get").err = some ErrNotFound ∧
    ((egClient egT404).Get Ctx.background "/get").bodyClosed = true ∧
    ((egClient egT404).Get Ctx.background "/get").bodyRead = false :=
  ⟨by decide, by decide, by decide⟩

/-- C9 as amended: whenever the transport returns a response, the response
body is closed before the call returns on every exit path (success, 404 and
unexpected-status); the body is read only on the success path, and on error
paths it is closed without being read, its content discarded (no bytes are
returned). -/
theorem body_closed_every_path_read_only_on_success (client : ApiClient) (ctx : Ctx)
    (method path : String) (body : Option (List Nat)) (req : Request) (resp : Response)
    (hreq : client.preparedRequest method path body = .ok req)
    (hdo : client.requestHandler req = .ok resp) :
    (client.request ctx method path body).bodyClosed = true ∧
    ((client.request ctx method path body).bodyRead = true ↔
      (200 ≤ resp.statusCode ∧ resp.statusCode < 400)) ∧
    ((client.request ctx method path body).bodyRead = false →
      (client.request ctx method path body).bytes = none) := by
  by_cases h1 : resp.statusCode < 200 ∨ 400 ≤ resp.statusCode
  · by_cases h2 : resp.statusCode = 404
    · simp only [ApiClient.request, hreq, hdo]
      rw [if_pos h1, if_pos h2]
      refine ⟨rfl, ?_, fun _ => rfl⟩
      simp only [Bool.false_eq_true, false_iff]
      omega
    · simp only [ApiClient.request, hreq, hdo]
      rw [if_pos h1, if_neg h2]
      refine ⟨rfl, ?_, fun _ => rfl⟩
      simp only [Bool.false_eq_true, false_iff]
      omega
  · simp only [ApiClient.request, hreq, hdo]
    rw [if_neg h1]
    refine ⟨rfl, ?_, fun h => by cases h⟩
    simp only [true_iff]
    omega

/-- C9 witness: on the 200 scenario the body is closed and was read. -/
theorem body_closed_every_path_read_only_on_success_witness :
    ((egClient egT200).Get Ctx.background "/get").bodyClosed = true ∧
    ((egClient egT200).Get Ctx.background "/get").bodyRead = true := by
  have h := body_closed_every_path_read_only_on_success (egClient egT200) Ctx.background
    "GET" "/get" none egReqGet egResp200 (by decide) (by rfl)
  exact ⟨h.1, h.2.1.mpr (by decide)⟩

end Twilio
